import Mathlib

/-!
Verification development for the back-order dashboard (`src/BO_app.py`).

The embedding models the data-transformation core of the app:
ingestion/cleaning (`load_and_clean_data`), the QOH-based stock split
(`backorders` / `instock`), the summary metrics, the filter pipeline
(`filtered_df` and the customer-total pass producing `customer_list`),
and the per-order annotation store (`order_data_dict` keyed by
`order_key`).

Numbers are modelled as rationals (`ℚ`); a pandas cell is a `RawVal`
(numeric, text, or missing/NaN).  Fallible steps return `Except` /
`Option`: a raised Python exception is modelled as the `error` / `none`
branch.
-/

namespace BOApp

/-- Decidable equality of `Except` values, so that concrete runs of the
ingestion function can be evaluated inside proofs. -/
instance {ε α : Type} [DecidableEq ε] [DecidableEq α] : DecidableEq (Except ε α) :=
  fun a b =>
    match a, b with
    | .ok x, .ok y =>
        if h : x = y then .isTrue (by rw [h]) else .isFalse (by simp [h])
    | .error x, .error y =>
        if h : x = y then .isTrue (by rw [h]) else .isFalse (by simp [h])
    | .ok _, .error _ => .isFalse (by simp)
    | .error _, .ok _ => .isFalse (by simp)

/-- A raw spreadsheet cell: a numeric value, a text value, or missing
(pandas `NaN`). Numeric-looking text is modelled as already parsed into
`num`, matching what `pd.read_excel` / `pd.read_csv` hand to the app. -/
inductive RawVal where
  | num (q : ℚ)
  | str (s : String)
  | missing
deriving DecidableEq, Repr

/-- `pd.to_numeric(col, errors="coerce")` on one cell: numbers pass
through, missing stays missing, and non-numeric text coerces to missing
(numeric text is modelled as `num` upstream). -/
def coerceNum : RawVal → Option ℚ
  | .num q => some q
  | .str _ => none
  | .missing => none

/-- `str.strip()`: remove leading and trailing whitespace.  Implemented
structurally over the character list so concrete values compute. -/
def pyStrip (s : String) : String :=
  ⟨((s.data.dropWhile Char.isWhitespace).reverse.dropWhile Char.isWhitespace).reverse⟩

/-- ASCII lowercasing of one character (used only to state
case-insensitive comparisons). -/
def lowerAscii (c : Char) : Char :=
  if 'A' ≤ c && c ≤ 'Z' then Char.ofNat (c.toNat + 32) else c

/-- ASCII lowercasing of a string. -/
def lowerStr (s : String) : String := ⟨s.data.map lowerAscii⟩

/-- `astype(str)` on one cell: pandas renders a missing value as the
literal string `"nan"`; a numeric cell renders via its decimal form. -/
def stringifyVal : RawVal → String
  | .num q => toString q
  | .str s => s
  | .missing => "nan"

/-- Python `str.isdigit` restricted to ASCII: true iff the string is
nonempty and all characters are digits. -/
def pyIsdigit (s : String) : Bool :=
  !s.data.isEmpty && s.data.all Char.isDigit

/-- The customer-name rejection applied by `load_and_clean_data`
(lines 37-41): after `astype(str).str.strip()`, the row is removed when
the name is `''`, exactly `'nan'`, exactly `'NaN'`, or `str.isdigit()`. -/
def nameRejected (v : RawVal) : Bool :=
  let s := pyStrip (stringifyVal v)
  (s == "") || (s == "nan") || (s == "NaN") || pyIsdigit s

/-- One raw input row, with the four columns the cleaning step reads
plus the identifier columns used by the annotation store. -/
structure RawRow where
  qoh : RawVal
  customerName : RawVal
  outstandingAmount : RawVal
  mfgLead : RawVal
  salesOrderNo : String
  itemNo : String
  desc : String
deriving DecidableEq, Repr

/-- A raw uploaded table: the set of column names present in the file,
and its rows. A column absent from `cols` makes any access to it raise
a `KeyError`. -/
structure RawTable where
  cols : List String
  rows : List RawRow
deriving Repr

/-- A cleaned row surviving `load_and_clean_data`: QOH and the
outstanding amount are numeric, the customer name is trimmed text that
passed the name checks, and the manufacturing lead is non-missing. -/
structure Row where
  customerName : String
  qoh : ℚ
  outstandingAmount : ℚ
  mfgLead : RawVal
  salesOrderNo : String
  itemNo : String
  desc : String
deriving DecidableEq, Repr

/-- Per-row part of `load_and_clean_data`: coerce `QOH` and
`Outstanding Amount` to numeric, stringify and strip the customer name,
drop the row on a rejected name (lines 38-41) or on a missing value in
any of the four critical columns (`dropna`, lines 44-45). -/
def cleanRow (r : RawRow) : Option Row :=
  let name := pyStrip (stringifyVal r.customerName)
  if nameRejected r.customerName then none
  else
    match coerceNum r.qoh, coerceNum r.outstandingAmount with
    | some q, some a =>
        if r.mfgLead = .missing then none
        else some ⟨name, q, a, r.mfgLead, r.salesOrderNo, r.itemNo, r.desc⟩
    | _, _ => none

/-- `load_and_clean_data` (lines 30-47).  Column accesses happen in
source order: `QOH` (line 33), `Outstanding Amount` (line 34),
`Sell-to Customer Name` (line 37) each raise a `KeyError` naming that
one column; `dropna(subset=[...])` (line 44) raises a `KeyError`
listing its absent subset columns, of which only `Mfg. Lead Name` can
still be missing at that point.  Errors carry the column list of the
raised `KeyError`. -/
def load_and_clean_data (t : RawTable) : Except (List String) (List Row) :=
  if "QOH" ∉ t.cols then .error ["QOH"]
  else if "Outstanding Amount" ∉ t.cols then .error ["Outstanding Amount"]
  else if "Sell-to Customer Name" ∉ t.cols then .error ["Sell-to Customer Name"]
  else if "Mfg. Lead Name" ∉ t.cols then .error ["Mfg. Lead Name"]
  else .ok (t.rows.filterMap cleanRow)

/-- The four required columns quoted by the error screen
(lines 703-707). -/
def requiredCols : List String :=
  ["QOH", "Sell-to Customer Name", "Outstanding Amount", "Mfg. Lead Name"]

/-- `backorders = df_clean[df_clean['QOH'] == 0]` (line 158). -/
def backorders (R : List Row) : List Row :=
  R.filter fun r => decide (r.qoh = 0)

/-- `instock = df_clean[df_clean['QOH'] > 0]` (line 159). -/
def instock (R : List Row) : List Row :=
  R.filter fun r => decide (0 < r.qoh)

/-- `backorders['Outstanding Amount'].sum()` (line 178). -/
def back_order_value (R : List Row) : ℚ :=
  ((backorders R).map Row.outstandingAmount).sum

/-- `instock['Outstanding Amount'].sum()` (line 186). -/
def instock_value (R : List Row) : ℚ :=
  ((instock R).map Row.outstandingAmount).sum

/-- `df_clean['Outstanding Amount'].sum()` (line 194). -/
def total_value (R : List Row) : ℚ :=
  (R.map Row.outstandingAmount).sum

/-- The "Back Order Items" share `len(backorders)/len(df_clean)*100`
(line 173).  The division is unguarded in the source; on an empty
cleaned set it raises `ZeroDivisionError`, modelled as `none`. -/
def back_order_items_pct (R : List Row) : Option ℚ :=
  if R.length = 0 then none
  else some (((backorders R).length : ℚ) / (R.length : ℚ) * 100)

/-- The per-customer back-order value share (line 364): guarded, 0 when
the customer's total is not positive. -/
def pct_bo (R : List Row) : ℚ :=
  if 0 < total_value R then back_order_value R / total_value R * 100 else 0

/-- The per-customer in-stock value share (line 372): guarded, 0 when
the customer's total is not positive. -/
def pct_is (R : List Row) : ℚ :=
  if 0 < total_value R then instock_value R / total_value R * 100 else 0

/-- The "Stock Status" selectbox options (lines 235-238):
`["All", "Back Order Only", "In Stock Only"]`. -/
inductive StockFilter where
  | all
  | backOrderOnly
  | inStockOnly
deriving DecidableEq, Repr

/-- The per-row stock-status test (lines 252-255): "Back Order Only"
keeps `QOH == 0`, "In Stock Only" keeps `QOH > 0`, "All" keeps
everything. -/
def stockPred (f : StockFilter) (r : Row) : Bool :=
  match f with
  | .all => true
  | .backOrderOnly => decide (r.qoh = 0)
  | .inStockOnly => decide (0 < r.qoh)

/-- The state of the filter widgets: manufacturing-lead multiselect,
item dollar bounds, stock-status selectbox, and the customer-total
bounds (lines 212-239 and 282-298). -/
structure FilterSpec where
  selected_mfg : List RawVal
  min_value : ℚ
  max_value : ℚ
  stock_filter : StockFilter
  customer_min_value : ℚ
  customer_max_value : ℚ

/-- The conjunction of the row-level filters applied to `filtered_df`
(lines 242-255): lead membership (an empty multiselect passes all),
inclusive amount range, and the stock-status test. -/
def rowPred (s : FilterSpec) (r : Row) : Bool :=
  (s.selected_mfg.isEmpty || s.selected_mfg.contains r.mfgLead)
    && decide (s.min_value ≤ r.outstandingAmount)
    && decide (r.outstandingAmount ≤ s.max_value)
    && stockPred s.stock_filter r

/-- `filtered_df` after the row-level filters (lines 242-255). -/
def filtered_df (s : FilterSpec) (R : List Row) : List Row :=
  R.filter (rowPred s)

/-- `cust_total`: one customer's `Outstanding Amount` sum over a
row-set (line 267, computed over the already-filtered `filtered_df`). -/
def cust_total (R : List Row) (c : String) : ℚ :=
  ((R.filter fun r => decide (r.customerName = c)).map Row.outstandingAmount).sum

/-- The customer-total pass (lines 264-304): a customer survives when
its total over `filtered_df` lies inclusively between the customer
bounds. -/
def customerKept (s : FilterSpec) (R1 : List Row) (c : String) : Bool :=
  decide (s.customer_min_value ≤ cust_total R1 c)
    && decide (cust_total R1 c ≤ s.customer_max_value)

/-- The full filter pipeline: the row-level filters produce
`filtered_df`, then only rows of customers in `customer_list` — those
whose total over `filtered_df` is in the customer range — remain
(lines 242-304, 316-318). -/
def apply_filters (s : FilterSpec) (R : List Row) : List Row :=
  let R1 := filtered_df s R
  R1.filter fun r => customerKept s R1 r.customerName

/-- One saved annotation value (lines 492-502): the fields stored in
`order_data_dict` on "Save".  The timestamp is an abstract tick. -/
structure OrderData where
  sales_order : String
  item_no : String
  description : String
  reason : String
  comments : String
  timestamp : ℕ
  customer : String
  amount : ℚ
  stock_status : String
deriving DecidableEq, Repr

/-- The annotation store `st.session_state.order_data_dict`: a Python
dict modelled as an insertion-ordered association list whose keys are
unique. -/
abbrev Store := List (String × OrderData)

/-- `order_key = f"{order['Sales Order No']}_{order['Item No']}"`
(line 455). -/
def order_key (so it : String) : String := so ++ "_" ++ it

/-- Python dict assignment `order_data_dict[key] = value` (line 492):
if the key is present its value is replaced in place, otherwise the
pair is appended. -/
def upsert (store : Store) (k : String) (v : OrderData) : Store :=
  if store.any (fun p => p.1 == k) then
    store.map fun p => if p.1 == k then (k, v) else p
  else store ++ [(k, v)]

/-- Python dict lookup `order_data_dict.get(key)`. -/
def getKey (store : Store) (k : String) : Option OrderData :=
  (store.find? fun p => p.1 == k).map Prod.snd

/-- Upsert addressed by the composite `(salesOrderId, itemId)` pair, as
the UI does: the pair is flattened through `order_key` before the dict
assignment. -/
def upsertPair (store : Store) (so it : String) (v : OrderData) : Store :=
  upsert store (order_key so it) v

/-- Lookup addressed by the composite `(salesOrderId, itemId)` pair. -/
def getPair (store : Store) (so it : String) : Option OrderData :=
  getKey store (order_key so it)

/-! Concrete fixtures used by counterexamples and witnesses. -/

/-- Fixture: a raw row whose `QOH` cell holds the numeric value `-1`
(nothing in the cleaning step rejects a negative quantity). -/
def rawNeg : RawRow := ⟨.num (-1), .str "Acme", .num 5, .str "Lee", "SO1", "IT1", "widget"⟩

/-- Fixture: a table holding only `rawNeg`, all required columns present. -/
def tNeg : RawTable := ⟨requiredCols, [rawNeg]⟩

/-- The cleaned row produced from `rawNeg`. -/
def rNeg : Row := ⟨"Acme", -1, 5, .str "Lee", "SO1", "IT1", "widget"⟩

/-- Fixture: a raw row whose customer name is `"NAN"`. -/
def rawNAN : RawRow := ⟨.num 0, .str "NAN", .num 5, .str "Lee", "SO2", "IT2", "gear"⟩

/-- Fixture: a table holding only `rawNAN`. -/
def tNAN : RawTable := ⟨requiredCols, [rawNAN]⟩

/-- The cleaned row produced from `rawNAN`. -/
def rNAN : Row := ⟨"NAN", 0, 5, .str "Lee", "SO2", "IT2", "gear"⟩

/-- Fixture: a raw row whose customer name is all digits. -/
def rawDigits : RawRow := ⟨.num 2, .str "12345", .num 9, .str "Kim", "SO3", "IT3", "bolt"⟩

/-- Fixture: a cleaned row with `QOH = 0`. -/
def rZero : Row := ⟨"Acme", 0, 5, .str "Lee", "SO4", "IT4", "nut"⟩

/-- Fixture: a cleaned row with `QOH = 3`. -/
def rPos : Row := ⟨"Acme", 3, 7, .str "Lee", "SO5", "IT5", "cog"⟩

/-- Fixture: a cleaned row with `QOH = 10` (the spec's Strict versus
ShortageAware example). -/
def r10 : Row := ⟨"Acme", 10, 5, .str "Lee", "SO6", "IT6", "cam"⟩

/-- Fixture: a table missing both the `QOH` and the
`Outstanding Amount` columns. -/
def tMissingTwo : RawTable := ⟨["Sell-to Customer Name", "Mfg. Lead Name"], []⟩

/-- Fixture: an annotation saved under the pair `("A", "B_C")`. -/
def od1 : OrderData := ⟨"A", "B_C", "left item", "reason one", "", 0, "Acme", 5, "BACK ORDER"⟩

/-- Fixture: a different annotation saved under the pair `("A_B", "C")`. -/
def od2 : OrderData := ⟨"A_B", "C", "right item", "reason two", "", 1, "Bolt Co", 7, "IN STOCK"⟩

/-! Claim theorems. -/

/-- Claim C1, counterexample: a raw row with numeric `QOH = -1`
survives `load_and_clean_data`, yet it lands in neither the
`QOH == 0` bucket nor the `QOH > 0` bucket, so the buckets do not
cover every row the normalizer outputs. -/
theorem negative_qoh_escapes_both_buckets :
    load_and_clean_data tNeg = .ok [rNeg] ∧
    rNeg ∉ backorders [rNeg] ∧ rNeg ∉ instock [rNeg] := by
  decide

/-- Claim C4, counterexample: `"NAN"` case-insensitively equals the
literal `"nan"`, yet the cleaning step keeps the row — the source
compares only against the exact spellings `'nan'` and `'NaN'`. -/
theorem name_NAN_kept_despite_case_insensitive_nan :
    lowerStr (pyStrip "NAN") = "nan" ∧
    nameRejected (.str "NAN") = false ∧
    load_and_clean_data tNAN = .ok [rNAN] := by
  decide

/-- Claim C5, counterexample: with both `QOH` and `Outstanding Amount`
absent, ingestion raises an error naming only `QOH` — the surfaced
error does not carry the list of all missing required columns. -/
theorem schema_error_reports_first_missing_only :
    load_and_clean_data tMissingTwo = .error ["QOH"] ∧
    "Outstanding Amount" ∈ requiredCols ∧
    "Outstanding Amount" ∉ tMissingTwo.cols ∧
    "Outstanding Amount" ∉ ["QOH"] := by
  decide

/-- Claim C6: on the empty cleaned row-set every dollar sum is 0 and
the guarded per-customer shares report 0, but the "Back Order Items"
share (line 173) divides by `len(df_clean)` unguarded and raises
`ZeroDivisionError` (modelled as `none`) instead of reporting 0. -/
theorem empty_rollup_sums_zero_but_share_divides_by_zero :
    total_value [] = 0 ∧ back_order_value [] = 0 ∧ instock_value [] = 0 ∧
    pct_bo [] = 0 ∧ pct_is [] = 0 ∧
    back_order_items_pct [] = none :=
  ⟨rfl, rfl, rfl, by decide, by decide, rfl⟩

/-- Claim C9, counterexample: a row with `QOH = 10` is in the in-stock
bucket, out of the back-order bucket, and every stock-status option the
source offers (`All` / `Back Order Only` / `In Stock Only`) treats it
by `QOH` alone — there is no ShortageAware policy that could classify
it as a partial shortage. -/
theorem qoh_ten_in_stock_under_every_offered_option :
    r10.qoh = 10 ∧ r10 ∉ backorders [r10] ∧ r10 ∈ instock [r10] ∧
    stockPred .all r10 = true ∧ stockPred .backOrderOnly r10 = false ∧
    stockPred .inStockOnly r10 = true := by
  decide

/-- Claim C10: the pairs `("A", "B_C")` and `("A_B", "C")` are distinct
keys, but both flatten through `order_key` to the string `"A_B_C"`, so
saving under one pair overwrites the record stored under the other. -/
theorem order_key_collision_overwrites_other_pair :
    (("A", "B_C") : String × String) ≠ ("A_B", "C") ∧
    order_key "A" "B_C" = order_key "A_B" "C" ∧
    od1 ≠ od2 ∧
    getPair (upsertPair (upsertPair [] "A" "B_C" od1) "A_B" "C" od2) "A" "B_C" = some od2 := by
  decide

/-- Claim C1 (amended): the `QOH == 0` and `QOH > 0` buckets are
always disjoint, and for a row-set whose quantities on hand are all
non-negative every row lands in exactly one bucket.  (The normalizer
does not enforce non-negative `QOH`, so the coverage half needs that
hypothesis.) -/
theorem strict_buckets_disjoint_and_cover_nonneg (R : List Row) :
    (∀ r, ¬(r ∈ backorders R ∧ r ∈ instock R)) ∧
    ((∀ r ∈ R, 0 ≤ r.qoh) →
      ∀ r ∈ R, (r ∈ backorders R ∧ r ∉ instock R) ∨
        (r ∈ instock R ∧ r ∉ backorders R)) := by
  constructor
  · intro r hc
    simp only [backorders, instock, List.mem_filter, decide_eq_true_eq] at hc
    exact absurd hc.1.2 (ne_of_gt hc.2.2)
  · intro h r hr
    simp only [backorders, instock, List.mem_filter, decide_eq_true_eq]
    rcases (h r hr).lt_or_eq with hlt | heq
    · right
      exact ⟨⟨hr, hlt⟩, fun hc => (ne_of_gt hlt) hc.2⟩
    · left
      exact ⟨⟨hr, heq.symm⟩, fun hc => absurd hc.2 (not_lt.mpr (le_of_eq heq.symm))⟩

/-- Witness for `strict_buckets_disjoint_and_cover_nonneg` on a
two-row set with quantities 0 and 3. -/
theorem strict_buckets_witness :
    (rZero ∈ backorders [rZero, rPos] ∧ rZero ∉ instock [rZero, rPos]) ∨
    (rZero ∈ instock [rZero, rPos] ∧ rZero ∉ backorders [rZero, rPos]) :=
  (strict_buckets_disjoint_and_cover_nonneg [rZero, rPos]).2 (by decide) rZero (by decide)

/-- Claim C2: a row survives the full filter pipeline exactly when it
passes every row-level predicate and its customer's total outstanding
amount — summed over `filtered_df`, the set already reduced by the
row-level predicates, never over the raw input — lies inclusively
within the customer range. -/
theorem filter_keeps_row_iff (s : FilterSpec) (R : List Row) (r : Row) :
    r ∈ apply_filters s R ↔
      r ∈ R ∧ rowPred s r = true ∧
      s.customer_min_value ≤ cust_total (filtered_df s R) r.customerName ∧
      cust_total (filtered_df s R) r.customerName ≤ s.customer_max_value := by
  simp only [apply_filters, customerKept, filtered_df, List.mem_filter,
    Bool.and_eq_true, decide_eq_true_eq]
  tauto

/-- Claim C4 (amended): for a raw row whose three other critical values
are present, the normalizer drops the row exactly when its stripped,
stringified customer name is empty, exactly `"nan"`, exactly `"NaN"`,
or all digits; other casings such as `"NAN"` or `"Nan"` are kept. -/
theorem name_drop_exact_condition (r : RawRow)
    (hq : coerceNum r.qoh ≠ none) (ha : coerceNum r.outstandingAmount ≠ none)
    (hm : r.mfgLead ≠ .missing) :
    cleanRow r = none ↔
      pyStrip (stringifyVal r.customerName) = "" ∨
      pyStrip (stringifyVal r.customerName) = "nan" ∨
      pyStrip (stringifyVal r.customerName) = "NaN" ∨
      pyIsdigit (pyStrip (stringifyVal r.customerName)) = true := by
  rcases hq' : coerceNum r.qoh with _ | q
  · exact absurd hq' hq
  rcases ha' : coerceNum r.outstandingAmount with _ | a
  · exact absurd ha' ha
  simp [cleanRow, nameRejected, hq', ha', hm]
  tauto

/-- Witness for `name_drop_exact_condition`: an all-digits customer
name makes the normalizer drop the row. -/
theorem name_drop_witness : cleanRow rawDigits = none :=
  (name_drop_exact_condition rawDigits (by decide) (by decide) (by decide)).mpr
    (by decide)

/-- Claim C5 (amended): ingestion fails exactly when a required column
is entirely absent; the surfaced error names one missing required
column (the first one the source touches), not necessarily the full
list; a missing value inside a row only drops that row. -/
theorem schema_error_iff_missing_required (t : RawTable) :
    ((∃ e, load_and_clean_data t = .error e) ↔ ¬ ∀ c ∈ requiredCols, c ∈ t.cols) ∧
    (∀ e, load_and_clean_data t = .error e →
      ∃ c, e = [c] ∧ c ∈ requiredCols ∧ c ∉ t.cols) ∧
    (∀ r : RawRow,
      coerceNum r.qoh = none ∨ coerceNum r.outstandingAmount = none ∨
        r.mfgLead = .missing →
      cleanRow r = none) := by
  refine ⟨?_, ?_, ?_⟩
  · unfold load_and_clean_data
    simp only [requiredCols, List.forall_mem_cons, List.forall_mem_nil]
    split_ifs with h1 h2 h3 h4 <;> simp_all
  · intro e he
    unfold load_and_clean_data at he
    by_cases h1 : "QOH" ∈ t.cols
    · by_cases h2 : "Outstanding Amount" ∈ t.cols
      · by_cases h3 : "Sell-to Customer Name" ∈ t.cols
        · by_cases h4 : "Mfg. Lead Name" ∈ t.cols
          · simp [h1, h2, h3, h4] at he
          · simp only [h1, h2, h3, h4, not_false_eq_true, not_true_eq_false,
              if_true, if_false, Except.error.injEq] at he
            exact ⟨"Mfg. Lead Name", he.symm, by simp [requiredCols], h4⟩
        · simp only [h1, h2, h3, not_false_eq_true, not_true_eq_false,
            if_true, if_false, Except.error.injEq] at he
          exact ⟨"Sell-to Customer Name", he.symm, by simp [requiredCols], h3⟩
      · simp only [h1, h2, not_false_eq_true, not_true_eq_false,
          if_true, if_false, Except.error.injEq] at he
        exact ⟨"Outstanding Amount", he.symm, by simp [requiredCols], h2⟩
    · simp only [h1, not_false_eq_true, if_true, Except.error.injEq] at he
      exact ⟨"QOH", he.symm, by simp [requiredCols], h1⟩
  · intro r hr
    unfold cleanRow
    split
    · rfl
    · rcases hr with h | h | h
      · rw [h]
      · rw [h]; cases coerceNum r.qoh <;> rfl
      · rcases coerceNum r.qoh with _ | q <;>
          rcases coerceNum r.outstandingAmount with _ | a <;> simp [h]

/-- Witness for `schema_error_iff_missing_required` on the table
missing two required columns. -/
theorem schema_error_witness :
    ∃ c, ["QOH"] = [c] ∧ c ∈ requiredCols ∧ c ∉ tMissingTwo.cols :=
  (schema_error_iff_missing_required tMissingTwo).2.1 ["QOH"] (by decide)

/-- Claim C9 (amended): the source classifies by `QOH` alone — its only
policy is Strict.  A row with positive quantity on hand is never in the
back-order bucket, is in the in-stock bucket whenever it is in the set,
and the offered stock-status options treat it accordingly; no option
yields a partial-shortage classification. -/
theorem positive_qoh_always_in_stock (R : List Row) (r : Row) (h : 0 < r.qoh) :
    r ∉ backorders R ∧ (r ∈ instock R ↔ r ∈ R) ∧
    stockPred .backOrderOnly r = false ∧ stockPred .inStockOnly r = true := by
  refine ⟨fun hb => ?_, ⟨fun hi => ?_, fun hr => ?_⟩, ?_, ?_⟩
  · rw [backorders, List.mem_filter] at hb
    exact absurd (of_decide_eq_true hb.2) (ne_of_gt h)
  · exact (List.mem_filter.mp hi).1
  · exact List.mem_filter.mpr ⟨hr, decide_eq_true h⟩
  · simp only [stockPred, decide_eq_false_iff_not]
    exact ne_of_gt h
  · simp only [stockPred, decide_eq_true_eq]
    exact h

/-- Witness for `positive_qoh_always_in_stock` at the `QOH = 10` row. -/
theorem positive_qoh_witness :
    r10 ∉ backorders [r10] ∧ (r10 ∈ instock [r10] ↔ r10 ∈ [r10]) ∧
    stockPred .backOrderOnly r10 = false ∧ stockPred .inStockOnly r10 = true :=
  positive_qoh_always_in_stock [r10] r10 (by decide)

/-- Rows surviving the full pipeline still satisfy the row-level
predicate, so re-running the row-level filters changes nothing. -/
theorem filtered_df_of_apply_filters (s : FilterSpec) (R : List Row) :
    filtered_df s (apply_filters s R) = apply_filters s R := by
  apply List.filter_eq_self.mpr
  intro r hr
  have h1 : r ∈ filtered_df s R := (List.mem_filter.mp hr).1
  exact (List.mem_filter.mp h1).2

/-- Removing only whole customers from a row-set does not change the
total of a customer that is kept. -/
theorem cust_total_filter_by_customer (R1 : List Row) (q : String → Bool)
    (c : String) (hc : q c = true) :
    cust_total (R1.filter fun r => q r.customerName) c = cust_total R1 c := by
  unfold cust_total
  rw [List.filter_filter]
  have heq : List.filter (fun r => decide (r.customerName = c) && q r.customerName) R1
      = List.filter (fun r => decide (r.customerName = c)) R1 := by
    apply List.filter_congr
    intro r _
    by_cases h : r.customerName = c
    · simp [h, hc]
    · simp [h]
  rw [heq]

/-- Claim C7: the full filter pipeline — row-level predicates followed
by the customer-total pass — is idempotent: applying the same
specification twice yields the same row-set as applying it once. -/
theorem apply_filters_idempotent (s : FilterSpec) (R : List Row) :
    apply_filters s (apply_filters s R) = apply_filters s R := by
  have hF : filtered_df s (apply_filters s R) = apply_filters s R :=
    filtered_df_of_apply_filters s R
  show (filtered_df s (apply_filters s R)).filter
      (fun r => customerKept s (filtered_df s (apply_filters s R)) r.customerName)
    = apply_filters s R
  rw [hF]
  apply List.filter_eq_self.mpr
  intro r hr
  have hkept : customerKept s (filtered_df s R) r.customerName = true :=
    (List.mem_filter.mp hr).2
  have ht : cust_total (apply_filters s R) r.customerName
      = cust_total (filtered_df s R) r.customerName :=
    cust_total_filter_by_customer (filtered_df s R)
      (fun c => customerKept s (filtered_df s R) c) r.customerName hkept
  calc customerKept s (apply_filters s R) r.customerName
      = customerKept s (filtered_df s R) r.customerName := by
        unfold customerKept
        rw [ht]
    _ = true := hkept

/-- Replacing the value stored under `k` does not change any entry's
key, so the key-membership test is unaffected. -/
theorem upsert_key_test (k : String) (v : OrderData) :
    ((fun p : String × OrderData => p.1 == k) ∘
      fun p => if p.1 == k then (k, v) else p)
    = fun p : String × OrderData => p.1 == k := by
  funext p
  by_cases hp : p.1 = k <;> simp [hp]

/-- Writing twice under the same key is the same as writing the second
value once. -/
theorem upsert_upsert (store : Store) (k : String) (v1 v2 : OrderData) :
    upsert (upsert store k v1) k v2 = upsert store k v2 := by
  by_cases h : store.any (fun p => p.1 == k) = true
  · have h1 : upsert store k v1 = store.map fun p => if p.1 == k then (k, v1) else p := by
      unfold upsert
      rw [if_pos h]
    have hany : (store.map fun p => if p.1 == k then (k, v1) else p).any
        (fun p => p.1 == k) = true := by
      rw [List.any_map, upsert_key_test]
      exact h
    rw [h1]
    unfold upsert
    rw [if_pos hany, if_pos h, List.map_map]
    apply List.map_congr_left
    intro p _
    by_cases hp : p.1 = k <;> simp [hp]
  · have h1 : upsert store k v1 = store ++ [(k, v1)] := by
      unfold upsert
      rw [if_neg h]
    have hany : (store ++ [(k, v1)]).any (fun p => p.1 == k) = true := by
      simp
    rw [h1]
    unfold upsert
    rw [if_pos hany, if_neg h, List.map_append]
    have hmem : ∀ p ∈ store, ¬(p.1 == k) = true := by
      intro p hp hpk
      exact h (List.any_eq_true.mpr ⟨p, hp, hpk⟩)
    have hid : (store.map fun p => if p.1 == k then (k, v2) else p) = store := by
      rw [show store = store.map id from (List.map_id store).symm]
      rw [List.map_map]
      apply List.map_congr_left
      intro p hp
      have hp' : ¬ p.1 = k := by simpa using hmem p hp
      simp [hp']
    rw [hid]
    simp

/-- After an upsert the stored value under the written key is the
written value: the replacing map turns the first key-matching entry
into `(k, v)`. -/
theorem find?_map_upsert (k : String) (v : OrderData) :
    ∀ store : Store, store.any (fun p => p.1 == k) = true →
      (store.map fun p => if p.1 == k then (k, v) else p).find?
        (fun p => p.1 == k) = some (k, v) := by
  intro store
  induction store with
  | nil => intro h; simp at h
  | cons a s ih =>
    intro h
    by_cases ha : (a.1 == k) = true
    · rw [List.map_cons, if_pos ha]
      exact List.find?_cons_of_pos _ (by simp)
    · rw [List.map_cons, if_neg ha]
      have step : List.find? (fun p : String × OrderData => p.1 == k)
          (a :: (s.map fun p => if p.1 == k then (k, v) else p))
          = List.find? (fun p => p.1 == k)
            (s.map fun p => if p.1 == k then (k, v) else p) :=
        List.find?_cons_of_neg _ ha
      rw [step]
      apply ih
      rw [List.any_cons] at h
      simpa [ha] using h

/-- Dict lookup after dict assignment returns the assigned value. -/
theorem getKey_upsert (store : Store) (k : String) (v : OrderData) :
    getKey (upsert store k v) k = some v := by
  unfold upsert getKey
  by_cases h : store.any (fun p => p.1 == k) = true
  · rw [if_pos h, find?_map_upsert k v store h]
    rfl
  · rw [if_neg h, List.find?_append]
    have h0 : store.find? (fun p => p.1 == k) = none := by
      rw [List.find?_eq_none]
      intro p hp hpk
      exact h (List.any_eq_true.mpr ⟨p, hp, hpk⟩)
    rw [h0]
    simp

/-- In a store with pairwise-distinct keys that contains the key `k`,
exactly one entry carries `k`. -/
theorem countP_key_of_nodup :
    ∀ store : Store, (store.map Prod.fst).Nodup →
      ∀ k : String, store.any (fun p => p.1 == k) = true →
      List.countP (fun p => p.1 == k) store = 1 := by
  intro store
  induction store with
  | nil => intro _ k h; simp at h
  | cons a s ih =>
    intro hnd k h
    rw [List.map_cons, List.nodup_cons] at hnd
    by_cases ha : (a.1 == k) = true
    · have step : List.countP (fun p : String × OrderData => p.1 == k) (a :: s)
          = List.countP (fun p => p.1 == k) s + 1 :=
        List.countP_cons_of_pos _ _ ha
      rw [step]
      have hz : List.countP (fun p => p.1 == k) s = 0 := by
        rw [List.countP_eq_zero]
        intro p hp hpk
        have e1 : p.1 = k := by simpa using hpk
        have e2 : a.1 = k := by simpa using ha
        have hmem : k ∈ s.map Prod.fst := e1 ▸ List.mem_map.mpr ⟨p, hp, rfl⟩
        exact hnd.1 (by rw [e2]; exact hmem)
      rw [hz]
    · have step : List.countP (fun p : String × OrderData => p.1 == k) (a :: s)
          = List.countP (fun p => p.1 == k) s :=
        List.countP_cons_of_neg _ _ ha
      rw [step]
      apply ih hnd.2 k
      rw [List.any_cons] at h
      simpa [ha] using h

/-- After an upsert into a distinct-key store, exactly one entry
carries the written key. -/
theorem filter_key_upsert (store : Store) (k : String) (v : OrderData)
    (hnd : (store.map Prod.fst).Nodup) :
    ((upsert store k v).filter fun p => p.1 == k).length = 1 := by
  rw [← List.countP_eq_length_filter]
  unfold upsert
  by_cases h : store.any (fun p => p.1 == k) = true
  · rw [if_pos h, List.countP_map, upsert_key_test]
    exact countP_key_of_nodup store hnd k h
  · rw [if_neg h, List.countP_append]
    have h0 : List.countP (fun p => p.1 == k) store = 0 := by
      rw [List.countP_eq_zero]
      intro p hp hpk
      exact h (List.any_eq_true.mpr ⟨p, hp, hpk⟩)
    rw [h0]
    simp

/-- Claim C3: in any dict-invariant store state, saving twice under the
same `(salesOrderId, itemId)` pair with two different records leaves
exactly one record under that key, and it is the second record —
last-write-wins full replacement, no merge. -/
theorem annotation_upsert_last_write_wins (store : Store) (so it : String)
    (v1 v2 : OrderData) (hnd : (store.map Prod.fst).Nodup) (_hne : v1 ≠ v2) :
    ((upsert (upsert store (order_key so it) v1) (order_key so it) v2).filter
        fun p => p.1 == order_key so it).length = 1 ∧
    getKey (upsert (upsert store (order_key so it) v1) (order_key so it) v2)
      (order_key so it) = some v2 := by
  rw [upsert_upsert]
  exact ⟨filter_key_upsert store (order_key so it) v2 hnd,
    getKey_upsert store (order_key so it) v2⟩

/-- Witness for `annotation_upsert_last_write_wins`: two saves under
the key of `("SO1", "IT1")` into the empty store. -/
theorem annotation_upsert_witness :
    ((upsert (upsert [] (order_key "SO1" "IT1") od1) (order_key "SO1" "IT1") od2).filter
        fun p => p.1 == order_key "SO1" "IT1").length = 1 ∧
    getKey (upsert (upsert [] (order_key "SO1" "IT1") od1) (order_key "SO1" "IT1") od2)
      (order_key "SO1" "IT1") = some od2 :=
  annotation_upsert_last_write_wins [] "SO1" "IT1" od1 od2 (by simp) (by decide)

end BOApp
